import Mathlib

set_option maxRecDepth 8000

/-!
Verification of the tuido TUI core (tui/tui.go).

The embedding below translates the Go code of tui/tui.go into Lean.
Item references (Go uses a slice of pointers) are modelled as indices
into the item store: the state holds `items : List Item` and
`renderSelection : List Nat`, a list of indices into `items`; mutating
an item through its index is visible through every list that holds the
index, exactly as a pointer mutation is visible through every slice
that holds the pointer.  Machine integers that can go negative
(the cursor) are `Int`.  The Go panic on an out-of-range slice index is
modelled by `Option`: `update` returns `none` where the Go code panics.
The bubbletea / bubbles libraries are external: a message is one of a
key press, a window resize, or any other message (`blink`), and the
textinput model is carried as its focus flag and its string value.
-/

inductive Status where
  | Open
  | Ongoing
  | Checked
  | Obsolete
deriving DecidableEq, Repr

inductive ItemType where
  | todo
  | done
deriving DecidableEq, Repr

inductive Mode where
  | navigation
  | filter
  | help
deriving DecidableEq, Repr

/-- Modelled from the spec: the tuido.Item type lives in the tuido package,
which is not under src/.  Per the spec data model an item carries a status
(one of the four Status values) and an ordered list of tags (tokens of the
raw text beginning with a hash character).  Only the two fields the TUI
code reads are modelled; sourcePath, lineNumber and rawText are opaque to
every claim. -/
structure Item where
  status : Status
  tags : List String
deriving DecidableEq, Repr

def Item.Satus (i : Item) : Status := i.status

def Item.SetStatus (i : Item) (s : Status) : Item := { i with status := s }

def Item.Tags (i : Item) : List String := i.tags

/-- Does s start with pre, as strings.HasPrefix does.  Written over the
character lists so the kernel can evaluate it. -/
def strStartsWith (s pre : String) : Bool := List.isPrefixOf pre.data s.data

/-- Does s end with suffix, as strings.HasSuffix does. -/
def strEndsWith (s sfx : String) : Bool :=
  List.isPrefixOf sfx.data.reverse s.data.reverse

/-- Lowercasing, as strings.ToLower does on ASCII. -/
def strToLower (s : String) : String := String.mk (s.data.map Char.toLower)

/-- Splitting a character list at spaces. -/
def splitOnSpace : List Char → List (List Char)
  | [] => [[]]
  | c :: rest =>
      match splitOnSpace rest with
      | [] => [[]]
      | g :: gs => if c = ' ' then [] :: g :: gs else (c :: g) :: gs

/-- Modelled from the spec: tuido.Tags parses a string into filter tags;
the tuido package is not under src/.  Spec 4.3 step 2: tokens beginning
with a hash character, split on whitespace. -/
def Tags (s : String) : List String :=
  ((splitOnSpace s.data).map (fun cs => String.mk cs)).filter
    (fun w => strStartsWith w "#")

/-- Messages of the event loop: key presses (identified by msg.String()),
window resizes, and every other bubbletea message (cursor blink ticks and
the like), which the Update switch ignores. -/
inductive Msg where
  | key (k : String)
  | windowSize (h w : Int)
  | blink
deriving DecidableEq, Repr

def Msg.isKey : Msg → Bool
  | Msg.key _ => true
  | _ => false

/-- The tui struct of tui.go.  pages and currentPage are never read or
written by Update and are omitted.  filterFocused / filterValue model the
bubbles textinput.Model by its focus flag and its value. -/
structure Tui where
  items : List Item
  itemsFilter : ItemType
  renderSelection : List Nat
  selection : Int
  mode : Mode
  filterFocused : Bool
  filterValue : String
  h : Int
  w : Int
deriving DecidableEq, Repr

/-- newTUI of tui.go: initial state (the filter input starts blurred). -/
def newTUI (items : List Item) : Tui :=
  { items := items
    itemsFilter := ItemType.todo
    renderSelection := []
    selection := 0
    mode := Mode.navigation
    filterFocused := false
    filterValue := ""
    h := 0
    w := 0 }

/-- The status test of the two view loops in populateRenderSelection:
the todo view keeps Ongoing and Open, the done view keeps Checked and
Obsolete. -/
def viewKeep (f : ItemType) (it : Item) : Bool :=
  match f with
  | ItemType.todo => it.Satus = Status.Ongoing ∨ it.Satus = Status.Open
  | ItemType.done => it.Satus = Status.Checked ∨ it.Satus = Status.Obsolete

/-- The indexed collection loop of populateRenderSelection: walk the item
store with a running index, keeping the indices of the items the predicate
accepts. -/
def selIdx (p : Item → Bool) : List Item → Nat → List Nat
  | [], _ => []
  | it :: rest, i =>
      if p it then i :: selIdx p rest (i + 1) else selIdx p rest (i + 1)

def baseSel (t : Tui) : List Nat := selIdx (viewKeep t.itemsFilter) t.items 0

/-- The inner double loop of the tag filter pass: for each tag of the item
and each filter tag, if the filter tag starts the item tag, append the item
(here: its index).  The Go continue only skips to the next filter tag, so
one index is appended per matching pair. -/
def tagMatches (filterTags : List String) (i : Nat) (it : Item) : List Nat :=
  it.Tags.flatMap (fun iTag =>
    filterTags.filterMap (fun fTag =>
      if strStartsWith iTag fTag then some i else none))

def tagHits (t : Tui) (i : Nat) : List Nat :=
  match t.items[i]? with
  | some it => tagMatches (Tags t.filterValue) i it
  | none => []

/-- The tag filter pass of populateRenderSelection: skipped when the
parsed filter tag list is empty. -/
def tagFilterStep (t : Tui) (sel : List Nat) : List Nat :=
  if (Tags t.filterValue).length ≠ 0 then sel.flatMap (tagHits t) else sel

/-- populateRenderSelection of tui.go: rebuild renderSelection from the
view loops and the tag filter pass, then clamp the cursor from above:
if selection + 1 >= len, selection becomes len - 1 (hence -1 on an empty
list).  Nothing raises a too-small cursor. -/
def populateRenderSelection (t : Tui) : Tui :=
  let sel := tagFilterStep t (baseSel t)
  { t with
    renderSelection := sel
    selection :=
      if t.selection + 1 ≥ (sel.length : Int) then (sel.length : Int) - 1
      else t.selection }

/-- tab of tui.go: toggle the view between todo and done, then
repopulate. -/
def tab (t : Tui) : Tui :=
  populateRenderSelection
    { t with
      itemsFilter :=
        match t.itemsFilter with
        | ItemType.todo => ItemType.done
        | ItemType.done => ItemType.todo }

/-- currentSelection of tui.go: repopulate when renderSelection is empty,
then index renderSelection[selection].  The Go code panics when the index
is out of range; here that is `none` in the first component. -/
def currentSelection (t : Tui) : Option Nat × Tui :=
  let t1 := if t.renderSelection.length = 0 then populateRenderSelection t else t
  (if t1.selection < 0 then none else t1.renderSelection[t1.selection.toNat]?, t1)

def dfltItem : Item := { status := Status.Open, tags := [] }

/-- SetStatus through an item reference: replace the item at the given
store index by the same item with the new status. -/
def setItemStatus (t : Tui) (idx : Nat) (s : Status) : Tui :=
  { t with items := t.items.set idx ((t.items.getD idx dfltItem).SetStatus s) }

/-- One status-key case of the Update switch:
t.currentSelection().SetStatus(s).  `none` models the panic inside
currentSelection. -/
def statusKeyUpdate (t : Tui) (s : Status) : Option Tui :=
  match currentSelection t with
  | (none, _) => none
  | (some idx, t1) => some (setItemStatus t1 idx s)

/-- Modelled from the spec: the bubbles textinput editing logic (external
library): any other key while the filter is focused inserts or deletes
characters of the filter text. -/
def textinputUpdate (k : String) (v : String) : String :=
  if k = "backspace" then v.dropRight 1 else v ++ k

/-- The key switch at the bottom of Update (reached directly in navigation,
or after a blur on esc / tab / down while the filter is focused).
The Bool of the result is true exactly when tea.Quit is returned. -/
def navKeys (t : Tui) (k : String) : Option (Tui × Bool) :=
  if k = "up" then
    some (if t.selection > 0 then { t with selection := t.selection - 1 } else t, false)
  else if k = "down" then
    some
      (if t.selection + 1 < (t.renderSelection.length : Int) then
        { t with selection := t.selection + 1 }
      else t, false)
  else if k = "tab" then some (tab t, false)
  else if k = "x" then (statusKeyUpdate t Status.Checked).map (fun u => (u, false))
  else if k = "-" then (statusKeyUpdate t Status.Obsolete).map (fun u => (u, false))
  else if k = "~" then (statusKeyUpdate t Status.Obsolete).map (fun u => (u, false))
  else if k = "s" then (statusKeyUpdate t Status.Obsolete).map (fun u => (u, false))
  else if k = "@" then (statusKeyUpdate t Status.Ongoing).map (fun u => (u, false))
  else if k = "a" then (statusKeyUpdate t Status.Ongoing).map (fun u => (u, false))
  else if k = " " then (statusKeyUpdate t Status.Open).map (fun u => (u, false))
  else if k = "/" then some ({ t with filterFocused := true }, false)
  else if k = "?" then some ({ t with mode := Mode.help }, false)
  else if k = "q" then some (t, true)
  else some (t, false)

/-- The part of Update after the initial populateRenderSelection call:
the focused-filter dispatch, the key switch, and the resize case. -/
def updateMain : Tui → Msg → Option (Tui × Bool)
  | t, Msg.key k =>
      if t.filterFocused = true then
        if k = "esc" ∨ k = "tab" ∨ k = "down" then
          navKeys { t with filterFocused := false } k
        else some ({ t with filterValue := textinputUpdate k t.filterValue }, false)
      else navKeys t k
  | t, Msg.windowSize hh ww => some ({ t with h := hh, w := ww }, false)
  | t, Msg.blink => some (t, false)

/-- Update of tui.go.  In help mode a key press only returns to navigation
(without repopulating); every other message first repopulates
renderSelection and then dispatches. -/
def update (t : Tui) (msg : Msg) : Option (Tui × Bool) :=
  if t.mode = Mode.help ∧ msg.isKey = true then
    some ({ t with mode := Mode.navigation }, false)
  else updateMain (populateRenderSelection t) msg

/-- getFiles of tui.go over the sequence of paths visited by the
filepath.WalkDir collaborator (directories included): for every visited
path and every configured extension, the path is appended when its
lowercasing ends with the extension string. -/
def getFiles (walked : List String) (extensions : List String) : List String :=
  walked.flatMap (fun p =>
    extensions.filterMap (fun sfx =>
      if strEndsWith (strToLower p) sfx then some p else none))

/-- The tag-occurrence collection loop of populateTagColorStyles: every
occurrence of every tag of every item, in order, duplicates kept. -/
def tagsOfItems (items : List Item) : List String := items.flatMap Item.Tags

/-- The hue computed for tag slot i: int(offset + i*interval) % 360.
Offset and interval are nonnegative, so the Go int conversion (truncation
toward zero) is the floor, and the Go % is emod. -/
def hueAt (offset interval : ℚ) (i : Nat) : Int :=
  ⌊offset + (i : ℚ) * interval⌋ % 360

/-- The assignment loop of populateTagColorStyles: the map is modelled as
a lookup function, each iteration overriding the entry of the current
tag, so the last occurrence of a tag wins, as for a Go map write. -/
def buildColors (offset interval : ℚ) :
    List String → Nat → (String → Option Int) → String → Option Int
  | [], _, m => m
  | tag :: rest, i, m =>
      buildColors offset interval rest (i + 1)
        (fun u => if u = tag then some (hueAt offset interval i) else m u)

/-- populateTagColorStyles of tui.go, keeping the hue (the lipgloss style
built from it is rendering).  The random offset rand.Float64()*360, drawn
once per run, is a parameter in [0, 360).  The real arithmetic of the Go
float64 computation is carried out exactly in ℚ. -/
def populateTagColorStyles (items : List Item) (offset : ℚ) :
    String → Option Int :=
  buildColors offset (360 / ((tagsOfItems items).length : ℚ))
    (tagsOfItems items) 0 (fun _ => none)

/-! Concrete states used by counterexamples and witnesses. -/

def itemOpen : Item := { status := Status.Open, tags := [] }

def t0demo : Tui := newTUI [itemOpen]

/-- The state reached from t0demo by pressing x: the only item is Checked
but still sits in renderSelection, which was rebuilt before the mutation. -/
def t1demo : Tui :=
  { items := [{ status := Status.Checked, tags := [] }]
    itemsFilter := ItemType.todo
    renderSelection := [0]
    selection := 0
    mode := Mode.navigation
    filterFocused := false
    filterValue := ""
    h := 0
    w := 0 }

/-- The state reached from t1demo by pressing tab: the done view shows the
Checked item, yet the cursor is still -1 from the moment the todo view
went empty. -/
def t2demo : Tui :=
  { t1demo with itemsFilter := ItemType.done, renderSelection := [0], selection := -1 }

/-! Projections of populateRenderSelection: only renderSelection and
selection change. -/

theorem populate_items (t : Tui) : (populateRenderSelection t).items = t.items := rfl

theorem populate_mode (t : Tui) : (populateRenderSelection t).mode = t.mode := rfl

theorem populate_filterFocused (t : Tui) :
    (populateRenderSelection t).filterFocused = t.filterFocused := rfl

theorem populate_filterValue (t : Tui) :
    (populateRenderSelection t).filterValue = t.filterValue := rfl

theorem populate_itemsFilter (t : Tui) :
    (populateRenderSelection t).itemsFilter = t.itemsFilter := rfl

theorem populate_renderSelection (t : Tui) :
    (populateRenderSelection t).renderSelection = tagFilterStep t (baseSel t) := rfl

/-- C1: the claim says navigating or mutating status on an empty visible
list never fails.  The code disagrees: with no items at all, pressing x
reaches renderSelection[-1] inside currentSelection and panics (modelled
by none), while up and down are indeed benign no-ops. -/
theorem c1_status_key_panics_on_empty :
    update (newTUI []) (Msg.key "x") = none ∧
    update (newTUI []) (Msg.key " ") = none ∧
    update (newTUI []) (Msg.key "up") = some ({ newTUI [] with selection := -1 }, false) ∧
    update (newTUI []) (Msg.key "down") = some ({ newTUI [] with selection := -1 }, false) := by
  decide

/-- C2: the claim states the cursor invariant 0 <= cursor < len(visible)
for every reachable state after recomputation.  Reachable refutation:
from one Open item, press x (item becomes Checked), then tab (done view
now shows the item): the recomputation clamp only lowers the cursor, so
selection stays -1 although renderSelection has length 1, and the next
status key press panics. -/
theorem c2_cursor_invariant_violated :
    update t0demo (Msg.key "x") = some (t1demo, false) ∧
    update t1demo (Msg.key "tab") = some (t2demo, false) ∧
    t2demo.renderSelection.length = 1 ∧
    t2demo.selection = -1 ∧
    update t2demo (Msg.key " ") = none := by
  decide

/-- C3 counterexample: with filter text matching two tags of the same item,
the item index is appended once per matching pair, so the visible list is
not a subset with each item appearing at most once. -/
def t3demo : Tui :=
  { newTUI [{ status := Status.Open, tags := ["#a", "#ab"] }] with filterValue := "#a" }

theorem c3_duplicate_in_visible :
    (populateRenderSelection t3demo).renderSelection = [0, 0] := by decide

/-- C4 counterexample: immediately after the x event is processed the
Checked item is still in renderSelection; nothing recomputes the visible
list within the same event. -/
theorem c4_item_still_visible_after_x :
    update t0demo (Msg.key "x") = some (t1demo, false) ∧
    t1demo.renderSelection = [0] ∧
    t1demo.items[0]? = some { status := Status.Checked, tags := [] } := by
  decide

/-- C5 counterexample: a resize event first repopulates renderSelection,
so it can change the visible list and the cursor, not only h and w; here
the stale Checked item vanishes and the cursor is re-clamped to -1. -/
theorem c5_resize_changes_visible :
    update t0demo (Msg.key "x") = some (t1demo, false) ∧
    update t1demo (Msg.windowSize 5 7) =
      some ({ t1demo with renderSelection := [], selection := -1, h := 5, w := 7 }, false) ∧
    t1demo.renderSelection ≠ [] ∧
    t1demo.selection = 0 := by
  decide

/-! Machinery for the visible-list invariants. -/

theorem selIdx_mem (p : Item → Bool) (l : List Item) :
    ∀ (base j : Nat),
      j ∈ selIdx p l base ↔
        ∃ k, j = base + k ∧ ∃ it, l[k]? = some it ∧ p it = true := by
  induction l with
  | nil => intro base j; simp [selIdx]
  | cons a rest ih =>
    intro base j
    constructor
    · intro hj
      by_cases hp : p a = true
      · rw [selIdx, if_pos hp] at hj
        rcases List.mem_cons.mp hj with h0 | h1
        · exact ⟨0, by omega, a, by simp, hp⟩
        · rcases (ih (base + 1) j).mp h1 with ⟨k, hk, it, hit, hpit⟩
          exact ⟨k + 1, by omega, it, by simpa using hit, hpit⟩
      · rw [selIdx, if_neg hp] at hj
        rcases (ih (base + 1) j).mp hj with ⟨k, hk, it, hit, hpit⟩
        exact ⟨k + 1, by omega, it, by simpa using hit, hpit⟩
    · rintro ⟨k, hk, it, hit, hpit⟩
      cases k with
      | zero =>
        rw [List.getElem?_cons_zero] at hit
        have ha : a = it := by exact Option.some.inj hit
        rw [selIdx, if_pos (ha ▸ hpit)]
        have : j = base := by omega
        rw [this]
        exact List.mem_cons_self _ _
      | succ k =>
        have hmem : j ∈ selIdx p rest (base + 1) :=
          (ih (base + 1) j).mpr ⟨k, by omega, it, by simpa using hit, hpit⟩
        rw [selIdx]
        by_cases hp : p a = true
        · rw [if_pos hp]; exact List.mem_cons_of_mem _ hmem
        · rw [if_neg hp]; exact hmem

theorem selIdx_ge (p : Item → Bool) (l : List Item) :
    ∀ (base j : Nat), j ∈ selIdx p l base → base ≤ j := by
  induction l with
  | nil => intro base j hj; simp [selIdx] at hj
  | cons a rest ih =>
    intro base j hj
    by_cases hp : p a = true
    · rw [selIdx, if_pos hp] at hj
      rcases List.mem_cons.mp hj with h0 | h1
      · omega
      · have := ih (base + 1) j h1; omega
    · rw [selIdx, if_neg hp] at hj
      have := ih (base + 1) j hj; omega

theorem selIdx_pairwise (p : Item → Bool) (l : List Item) :
    ∀ (base : Nat), (selIdx p l base).Pairwise (· < ·) := by
  induction l with
  | nil => intro base; simp [selIdx]
  | cons a rest ih =>
    intro base
    by_cases hp : p a = true
    · rw [selIdx, if_pos hp]
      refine List.pairwise_cons.mpr ⟨?_, ih (base + 1)⟩
      intro j hj
      have := selIdx_ge p rest (base + 1) j hj
      omega
    · rw [selIdx, if_neg hp]; exact ih (base + 1)

theorem mem_baseSel (t : Tui) (j : Nat) :
    j ∈ baseSel t ↔
      ∃ it, t.items[j]? = some it ∧ viewKeep t.itemsFilter it = true := by
  unfold baseSel
  rw [selIdx_mem]
  constructor
  · rintro ⟨k, hk, it, hit, hpit⟩
    have : k = j := by omega
    exact ⟨it, this ▸ hit, hpit⟩
  · rintro ⟨it, hit, hpit⟩
    exact ⟨j, by omega, it, hit, hpit⟩

theorem mem_tagMatches (ft : List String) (i : Nat) (it : Item) (j : Nat) :
    j ∈ tagMatches ft i it ↔
      j = i ∧ ∃ iTag ∈ it.Tags, ∃ fTag ∈ ft, strStartsWith iTag fTag = true := by
  simp only [tagMatches, List.mem_flatMap, List.mem_filterMap,
    Option.ite_none_right_eq_some, Option.some.injEq]
  constructor
  · rintro ⟨iTag, hiTag, fTag, hfTag, hpre, hij⟩
    exact ⟨hij.symm, iTag, hiTag, fTag, hfTag, hpre⟩
  · rintro ⟨hij, iTag, hiTag, fTag, hfTag, hpre⟩
    exact ⟨iTag, hiTag, fTag, hfTag, hpre, hij.symm⟩

theorem tagHits_eq_self (t : Tui) (i j : Nat) (hj : j ∈ tagHits t i) : j = i := by
  unfold tagHits at hj
  cases hit : t.items[i]? with
  | none => rw [hit] at hj; simp at hj
  | some it => rw [hit] at hj; exact ((mem_tagMatches _ _ _ _).mp hj).1

theorem mem_flatMap_tagHits (t : Tui) (l : List Nat) (j : Nat) :
    j ∈ l.flatMap (tagHits t) ↔ j ∈ l ∧ j ∈ tagHits t j := by
  simp only [List.mem_flatMap]
  constructor
  · rintro ⟨i, hi, hj⟩
    have := tagHits_eq_self t i j hj
    subst this
    exact ⟨hi, hj⟩
  · rintro ⟨hl, hj⟩
    exact ⟨j, hl, hj⟩

theorem pairwise_le_of_all_eq (a : Nat) :
    ∀ (m : List Nat), (∀ x ∈ m, x = a) → m.Pairwise (· ≤ ·) := by
  intro m
  induction m with
  | nil => intro _; simp
  | cons b rest ih =>
    intro hall
    refine List.pairwise_cons.mpr ⟨?_, ih fun x hx => hall x (List.mem_cons_of_mem _ hx)⟩
    intro y hy
    have hb : b = a := hall b (List.mem_cons_self _ _)
    have hya : y = a := hall y (List.mem_cons_of_mem _ hy)
    omega

theorem pairwise_le_flatMap_tagHits (t : Tui) (l : List Nat)
    (hl : l.Pairwise (· < ·)) : (l.flatMap (tagHits t)).Pairwise (· ≤ ·) := by
  induction l with
  | nil => simp
  | cons a rest ih =>
    rw [List.flatMap_cons, List.pairwise_append]
    rcases List.pairwise_cons.mp hl with ⟨hlt, hrest⟩
    refine ⟨pairwise_le_of_all_eq a _ (fun x hx => tagHits_eq_self t a x hx), ih hrest, ?_⟩
    intro x hx y hy
    have hxa := tagHits_eq_self t a x hx
    rcases List.mem_flatMap.mp hy with ⟨i, hi, hyi⟩
    have hyi2 := tagHits_eq_self t i y hyi
    have := hlt i hi
    omega

theorem mem_visible (t : Tui) (j : Nat)
    (hj : j ∈ (populateRenderSelection t).renderSelection) :
    ∃ it, t.items[j]? = some it ∧ viewKeep t.itemsFilter it = true := by
  rw [populate_renderSelection] at hj
  unfold tagFilterStep at hj
  by_cases hft : (Tags t.filterValue).length ≠ 0
  · rw [if_pos hft] at hj
    exact (mem_baseSel t j).mp ((mem_flatMap_tagHits t _ j).mp hj).1
  · rw [if_neg hft] at hj
    exact (mem_baseSel t j).mp hj

/-- C3 amended: every member of the recomputed visible list is an index of
a view-matching item of the full list, and the indices are nondecreasing
(so the relative order of the full list is preserved); without an active
tag filter the indices are strictly increasing, hence each item appears at
most once, while with a filter an item is appended once per matching
item-tag / filter-tag pair and may appear several times. -/
theorem c3_visible_ordered_view_subset (t : Tui) :
    (∀ j ∈ (populateRenderSelection t).renderSelection,
        ∃ it, t.items[j]? = some it ∧ viewKeep t.itemsFilter it = true) ∧
    (populateRenderSelection t).renderSelection.Pairwise (· ≤ ·) ∧
    (Tags t.filterValue = [] →
      (populateRenderSelection t).renderSelection.Pairwise (· < ·)) := by
  refine ⟨fun j hj => mem_visible t j hj, ?_, ?_⟩
  · rw [populate_renderSelection]
    unfold tagFilterStep
    by_cases hft : (Tags t.filterValue).length ≠ 0
    · rw [if_pos hft]
      exact pairwise_le_flatMap_tagHits t _ (selIdx_pairwise _ _ 0)
    · rw [if_neg hft]
      exact (selIdx_pairwise _ _ 0).imp (fun h => Nat.le_of_lt h)
  · intro hTags
    rw [populate_renderSelection]
    unfold tagFilterStep
    rw [if_neg (by rw [hTags]; simp)]
    exact selIdx_pairwise _ _ 0

theorem c3_witness :
    (populateRenderSelection t0demo).renderSelection.Pairwise (· < ·) :=
  (c3_visible_ordered_view_subset t0demo).2.2 (by decide)

/-- C6: with a non-empty parsed filter tag list, an index is in the
recomputed visible list exactly when its item matches the view and has a
tag of which some filter tag is a prefix (case-sensitive). -/
theorem c6_tag_filter_membership (t : Tui) (j : Nat)
    (hft : Tags t.filterValue ≠ []) :
    j ∈ (populateRenderSelection t).renderSelection ↔
      ∃ it, t.items[j]? = some it ∧ viewKeep t.itemsFilter it = true ∧
        ∃ iTag ∈ it.Tags, ∃ fTag ∈ Tags t.filterValue,
          strStartsWith iTag fTag = true := by
  rw [populate_renderSelection]
  unfold tagFilterStep
  rw [if_pos (fun h => hft (List.length_eq_zero.mp h))]
  rw [mem_flatMap_tagHits, mem_baseSel]
  constructor
  · rintro ⟨⟨it, hit, hview⟩, hhits⟩
    refine ⟨it, hit, hview, ?_⟩
    unfold tagHits at hhits
    rw [hit] at hhits
    exact ((mem_tagMatches _ _ _ _).mp hhits).2
  · rintro ⟨it, hit, hview, htags⟩
    refine ⟨⟨it, hit, hview⟩, ?_⟩
    unfold tagHits
    rw [hit]
    exact (mem_tagMatches _ _ _ _).mpr ⟨rfl, htags⟩

def t6a : Tui :=
  { newTUI [{ status := Status.Open, tags := ["#design", "#urgent"] }] with
    filterValue := "#des" }

def t6b : Tui := { t6a with filterValue := "#xyz" }

theorem c6_witness :
    0 ∈ (populateRenderSelection t6a).renderSelection ∧
    0 ∉ (populateRenderSelection t6b).renderSelection := by
  constructor
  · exact (c6_tag_filter_membership t6a 0 (by decide)).mpr
      ⟨{ status := Status.Open, tags := ["#design", "#urgent"] },
        by decide, by decide, by decide⟩
  · intro hmem
    rcases (c6_tag_filter_membership t6b 0 (by decide)).mp hmem with
      ⟨it, hit, hview, htag⟩
    have h0 : t6b.items[0]? =
        some { status := Status.Open, tags := ["#design", "#urgent"] } := by decide
    have hits : it = { status := Status.Open, tags := ["#design", "#urgent"] } :=
      (Option.some.inj (h0.symm.trans hit)).symm
    subst hits
    exact absurd htag (by decide)

/-! Dispatch helpers for Update. -/

theorem update_nav (t : Tui) (k : String)
    (hm : t.mode ≠ Mode.help) (hf : t.filterFocused = false) :
    update t (Msg.key k) = navKeys (populateRenderSelection t) k := by
  unfold update
  rw [if_neg (fun h => hm h.1)]
  simp only [updateMain]
  rw [if_neg (by rw [populate_filterFocused, hf]; simp)]

theorem update_focused (t : Tui) (k : String)
    (hm : t.mode ≠ Mode.help) (hf : t.filterFocused = true) :
    update t (Msg.key k) =
      if k = "esc" ∨ k = "tab" ∨ k = "down" then
        navKeys { populateRenderSelection t with filterFocused := false } k
      else
        some ({ populateRenderSelection t with
                  filterValue :=
                    textinputUpdate k (populateRenderSelection t).filterValue },
              false) := by
  unfold update
  rw [if_neg (fun h => hm h.1)]
  simp only [updateMain]
  rw [if_pos (by rw [populate_filterFocused, hf])]

theorem statusKeyUpdate_eq (t1 : Tui) (s : Status) (idx : Nat)
    (hsel : 0 ≤ t1.selection)
    (hidx : t1.renderSelection[t1.selection.toNat]? = some idx) :
    statusKeyUpdate t1 s = some (setItemStatus t1 idx s) := by
  have hlt : t1.selection.toNat < t1.renderSelection.length := by
    rcases List.getElem?_eq_some_iff.mp hidx with ⟨h, _⟩
    exact h
  have hlen : ¬ t1.renderSelection.length = 0 := by omega
  unfold statusKeyUpdate currentSelection
  simp only [if_neg hlen, if_neg (not_lt.mpr hsel), hidx]

/-- The seven status keys of the Update switch paired with the status each
one writes. -/
def statusKeys : List (String × Status) :=
  [("x", Status.Checked), ("-", Status.Obsolete), ("~", Status.Obsolete),
   ("s", Status.Obsolete), ("@", Status.Ongoing), ("a", Status.Ongoing),
   (" ", Status.Open)]

theorem navKeys_statusKey (t1 : Tui) (k : String) (s : Status)
    (hks : (k, s) ∈ statusKeys) :
    navKeys t1 k = (statusKeyUpdate t1 s).map (fun u => (u, false)) := by
  simp only [statusKeys, List.mem_cons, List.not_mem_nil, or_false,
    Prod.mk.injEq] at hks
  rcases hks with ⟨rfl, rfl⟩ | ⟨rfl, rfl⟩ | ⟨rfl, rfl⟩ | ⟨rfl, rfl⟩ |
    ⟨rfl, rfl⟩ | ⟨rfl, rfl⟩ | ⟨rfl, rfl⟩ <;> rfl

/-- Effect of a status key in navigation: the dispatched status is written
onto the item the current selection references and no other item moves. -/
theorem statusKey_effect (t : Tui) (k : String) (s : Status) (idx : Nat)
    (hm : t.mode ≠ Mode.help) (hf : t.filterFocused = false)
    (hks : (k, s) ∈ statusKeys)
    (hsel : 0 ≤ (populateRenderSelection t).selection)
    (hidx : (populateRenderSelection t).renderSelection[
              (populateRenderSelection t).selection.toNat]? = some idx) :
    update t (Msg.key k) =
      some (setItemStatus (populateRenderSelection t) idx s, false) ∧
    (setItemStatus (populateRenderSelection t) idx s).items[idx]? =
      some ((t.items.getD idx dfltItem).SetStatus s) ∧
    ∀ j, j ≠ idx →
      (setItemStatus (populateRenderSelection t) idx s).items[j]? =
        t.items[j]? := by
  have hidxlen : idx < t.items.length := by
    have hjmem : idx ∈ (populateRenderSelection t).renderSelection :=
      List.getElem?_mem hidx
    rcases mem_visible t idx hjmem with ⟨it, hit, _⟩
    rcases List.getElem?_eq_some_iff.mp hit with ⟨h, _⟩
    exact h
  refine ⟨?_, ?_, ?_⟩
  · rw [update_nav t k hm hf, navKeys_statusKey _ k s hks,
      statusKeyUpdate_eq _ s idx hsel hidx]
    rfl
  · unfold setItemStatus
    simp only [populate_items]
    rw [List.getElem?_set_self (by simpa using hidxlen)]
  · intro j hj
    unfold setItemStatus
    simp only [populate_items]
    rw [List.getElem?_set_ne (fun h => hj h.symm)]

/-- C7: in navigation (help not shown, filter input blurred), with a valid
current selection, each status key writes its status onto the current item
and touches no other item: x gives Checked; the dash, tilde and s give
Obsolete; at-sign and a give Ongoing; space gives Open. -/
theorem c7_status_keys (t : Tui) (k : String) (s : Status) (idx : Nat)
    (hm : t.mode ≠ Mode.help) (hf : t.filterFocused = false)
    (hks : (k, s) ∈ statusKeys)
    (hsel : 0 ≤ (populateRenderSelection t).selection)
    (hidx : (populateRenderSelection t).renderSelection[
              (populateRenderSelection t).selection.toNat]? = some idx) :
    update t (Msg.key k) =
      some (setItemStatus (populateRenderSelection t) idx s, false) ∧
    (setItemStatus (populateRenderSelection t) idx s).items[idx]? =
      some ((t.items.getD idx dfltItem).SetStatus s) ∧
    ∀ j, j ≠ idx →
      (setItemStatus (populateRenderSelection t) idx s).items[j]? =
        t.items[j]? :=
  statusKey_effect t k s idx hm hf hks hsel hidx

theorem c7_witness :
    update t0demo (Msg.key " ") =
      some (setItemStatus (populateRenderSelection t0demo) 0 Status.Open, false) :=
  (c7_status_keys t0demo " " Status.Open 0 (by decide) rfl (by decide)
    (by decide) (by decide)).1

/-- C8: while the filter input is focused (and help is not shown), esc,
tab and down blur the input; esc then matches no switch case and only
defocuses, while tab and down fall through to the switch and act as the
normal navigation keys (tab toggles the view, down moves the cursor); any
other key is handed to the text editing logic and performs no navigation
action. -/
theorem c8_filter_entry_keys (t : Tui)
    (hm : t.mode ≠ Mode.help) (hf : t.filterFocused = true) :
    update t (Msg.key "esc") =
      some ({ populateRenderSelection t with filterFocused := false }, false) ∧
    update t (Msg.key "tab") =
      some (tab { populateRenderSelection t with filterFocused := false }, false) ∧
    update t (Msg.key "down") =
      some ((if (populateRenderSelection t).selection + 1 <
              ((populateRenderSelection t).renderSelection.length : Int) then
              { populateRenderSelection t with
                  filterFocused := false,
                  selection := (populateRenderSelection t).selection + 1 }
            else { populateRenderSelection t with filterFocused := false }),
        false) ∧
    ∀ k, ¬(k = "esc" ∨ k = "tab" ∨ k = "down") →
      update t (Msg.key k) =
        some ({ populateRenderSelection t with
                  filterValue :=
                    textinputUpdate k (populateRenderSelection t).filterValue },
              false) := by
  refine ⟨?_, ?_, ?_, ?_⟩
  · rw [update_focused t "esc" hm hf, if_pos (Or.inl rfl)]
    rfl
  · rw [update_focused t "tab" hm hf, if_pos (Or.inr (Or.inl rfl))]
    rfl
  · rw [update_focused t "down" hm hf, if_pos (Or.inr (Or.inr rfl))]
    rfl
  · intro k hk
    rw [update_focused t k hm hf, if_neg hk]

def t8demo : Tui := { t0demo with filterFocused := true }

theorem c8_witness :
    update t8demo (Msg.key "esc") =
      some ({ populateRenderSelection t8demo with filterFocused := false }, false) ∧
    update t8demo (Msg.key "z") =
      some ({ populateRenderSelection t8demo with
                filterValue :=
                  textinputUpdate "z" (populateRenderSelection t8demo).filterValue },
            false) :=
  ⟨(c8_filter_entry_keys t8demo (by decide) rfl).1,
   (c8_filter_entry_keys t8demo (by decide) rfl).2.2.2 "z" (by decide)⟩

/-- C4 amended: with a current item selected in the Active (todo) view,
pressing x writes Checked onto it, but nothing recomputes the visible list
within the same event, so the item is still in renderSelection immediately
afterwards; the repopulation at the start of processing the next event
(here a blink message) removes it, since the todo view excludes Checked. -/
theorem c4_x_checked_gone_after_next_event (t : Tui) (idx : Nat)
    (hm : t.mode ≠ Mode.help) (hf : t.filterFocused = false)
    (hview : t.itemsFilter = ItemType.todo)
    (hsel : 0 ≤ (populateRenderSelection t).selection)
    (hidx : (populateRenderSelection t).renderSelection[
              (populateRenderSelection t).selection.toNat]? = some idx) :
    update t (Msg.key "x") =
      some (setItemStatus (populateRenderSelection t) idx Status.Checked, false) ∧
    idx ∈ (setItemStatus (populateRenderSelection t) idx Status.Checked).renderSelection ∧
    (setItemStatus (populateRenderSelection t) idx Status.Checked).items[idx]? =
      some ((t.items.getD idx dfltItem).SetStatus Status.Checked) ∧
    update (setItemStatus (populateRenderSelection t) idx Status.Checked) Msg.blink =
      some (populateRenderSelection
              (setItemStatus (populateRenderSelection t) idx Status.Checked), false) ∧
    idx ∉ (populateRenderSelection
            (setItemStatus (populateRenderSelection t) idx Status.Checked)).renderSelection := by
  obtain ⟨hupd, hget, hother⟩ :=
    statusKey_effect t "x" Status.Checked idx hm hf (by simp [statusKeys]) hsel hidx
  refine ⟨hupd, ?_, hget, ?_, ?_⟩
  · have : (setItemStatus (populateRenderSelection t) idx Status.Checked).renderSelection =
        (populateRenderSelection t).renderSelection := rfl
    rw [this]
    exact List.getElem?_mem hidx
  · unfold update
    rw [if_neg (fun hcontra => by simpa [Msg.isKey] using hcontra.2)]
    rfl
  · intro hmem
    rcases mem_visible _ idx hmem with ⟨it, hit, hkeep⟩
    rw [hget] at hit
    have hits : it = (t.items.getD idx dfltItem).SetStatus Status.Checked :=
      (Option.some.inj hit).symm
    subst hits
    have hfil : (setItemStatus (populateRenderSelection t) idx Status.Checked).itemsFilter =
        ItemType.todo := by
      have : (setItemStatus (populateRenderSelection t) idx Status.Checked).itemsFilter =
          t.itemsFilter := rfl
      rw [this, hview]
    rw [hfil] at hkeep
    simp [viewKeep, Item.SetStatus, Item.Satus] at hkeep

theorem c4_witness :
    update t0demo (Msg.key "x") =
      some (setItemStatus (populateRenderSelection t0demo) 0 Status.Checked, false) ∧
    0 ∈ (setItemStatus (populateRenderSelection t0demo) 0 Status.Checked).renderSelection ∧
    0 ∉ (populateRenderSelection
          (setItemStatus (populateRenderSelection t0demo) 0 Status.Checked)).renderSelection := by
  obtain ⟨h1, h2, _, _, h5⟩ :=
    c4_x_checked_gone_after_next_event t0demo 0 (by decide) rfl rfl (by decide) (by decide)
  exact ⟨h1, h2, h5⟩

/-- C5 amended: a resize event sets h and w and leaves mode, filter text,
focus, item statuses and the view unchanged, but it also repopulates
renderSelection and re-clamps the cursor first, because Update recomputes
the visible list on every non-help message before dispatching. -/
theorem c5_resize_effect (t : Tui) (hh ww : Int) :
    update t (Msg.windowSize hh ww) =
      some ({ populateRenderSelection t with h := hh, w := ww }, false) ∧
    ({ populateRenderSelection t with h := hh, w := ww } : Tui).mode = t.mode ∧
    ({ populateRenderSelection t with h := hh, w := ww } : Tui).items = t.items ∧
    ({ populateRenderSelection t with h := hh, w := ww } : Tui).itemsFilter = t.itemsFilter ∧
    ({ populateRenderSelection t with h := hh, w := ww } : Tui).filterValue = t.filterValue ∧
    ({ populateRenderSelection t with h := hh, w := ww } : Tui).filterFocused = t.filterFocused ∧
    ({ populateRenderSelection t with h := hh, w := ww } : Tui).renderSelection =
      (populateRenderSelection t).renderSelection ∧
    ({ populateRenderSelection t with h := hh, w := ww } : Tui).selection =
      (populateRenderSelection t).selection := by
  refine ⟨?_, rfl, rfl, rfl, rfl, rfl, rfl, rfl⟩
  unfold update
  rw [if_neg (fun hcontra => by simpa [Msg.isKey] using hcontra.2)]
  rfl

/-- C10: file discovery appends any walked path (directories included)
whose lowercased path merely ends with the letters of a configured
extension, with no dot or separator boundary check. -/
theorem c10_suffix_inclusion (walked extensions : List String) (p sfx : String)
    (hp : p ∈ walked) (hs : sfx ∈ extensions)
    (hmatch : strEndsWith (strToLower p) sfx = true) :
    p ∈ getFiles walked extensions := by
  unfold getFiles
  rw [List.mem_flatMap]
  refine ⟨p, hp, ?_⟩
  rw [List.mem_filterMap]
  exact ⟨sfx, hs, by rw [hmatch]; rfl⟩

theorem c10_witness : "foo.cmd" ∈ getFiles ["foo.cmd"] ["md", "txt", "xit"] :=
  c10_suffix_inclusion ["foo.cmd"] ["md", "txt", "xit"] "foo.cmd" "md"
    (by decide) (by decide) (by decide)

/-! Tag color machinery. -/

theorem buildColors_preserve (offset interval : ℚ) :
    ∀ (l : List String) (i : Nat) (m : String → Option Int) (tag : String),
      tag ∉ l → buildColors offset interval l i m tag = m tag := by
  intro l
  induction l with
  | nil => intro i m tag _; rfl
  | cons a rest ih =>
    intro i m tag htag
    rw [buildColors, ih (i + 1) _ tag (fun h => htag (List.mem_cons_of_mem _ h))]
    rw [if_neg (fun h : tag = a => htag (by rw [h]; exact List.mem_cons_self _ _))]

theorem buildColors_lookup (offset interval : ℚ) :
    ∀ (l : List String) (i : Nat) (m : String → Option Int) (tag : String) (hv : Int),
      buildColors offset interval l i m tag = some hv →
      (∃ k, l[k]? = some tag ∧ hv = hueAt offset interval (i + k)) ∨
        m tag = some hv := by
  intro l
  induction l with
  | nil => intro i m tag hv hb; exact Or.inr hb
  | cons a rest ih =>
    intro i m tag hv hb
    rw [buildColors] at hb
    rcases ih (i + 1) _ tag hv hb with ⟨k, hk, hh⟩ | hm
    · refine Or.inl ⟨k + 1, by simpa using hk, ?_⟩
      rw [hh]
      congr 1
      omega
    · by_cases htag : tag = a
      · subst htag
        rw [if_pos rfl] at hm
        refine Or.inl ⟨0, by simp, ?_⟩
        have : hueAt offset interval i = hv := Option.some.inj hm
        rw [← this, Nat.add_zero]
      · rw [if_neg htag] at hm
        exact Or.inr hm

/-- Hues of two distinct slot indices are distinct whenever there are at
most 360 tag slots: the interval is then at least one degree, so the two
floors differ by at least 1 and by at most 359, and cannot agree
modulo 360. -/
theorem hueAt_ne (L : Nat) (offset : ℚ) (i j : Nat)
    (ho0 : 0 ≤ offset) (ho1 : offset < 360)
    (hL : L ≤ 360) (hij : i < j) (hjL : j < L) :
    hueAt offset (360 / (L : ℚ)) i ≠ hueAt offset (360 / (L : ℚ)) j := by
  intro heq
  unfold hueAt at heq
  have hL0 : 0 < L := by omega
  have hLq : (0 : ℚ) < (L : ℚ) := by exact_mod_cast hL0
  have hLq360 : (L : ℚ) ≤ 360 := by exact_mod_cast hL
  have hone : (1 : ℚ) ≤ 360 / (L : ℚ) := by
    rw [le_div_iff hLq]; linarith
  have hpos : (0 : ℚ) < 360 / (L : ℚ) := by linarith
  have hcancel : 360 / (L : ℚ) * (L : ℚ) = 360 := by field_simp
  have hij1 : (i : ℚ) + 1 ≤ (j : ℚ) := by exact_mod_cast hij
  have hjL1 : (j : ℚ) + 1 ≤ (L : ℚ) := by exact_mod_cast hjL
  have hi0 : (0 : ℚ) ≤ (i : ℚ) := by positivity
  have hxy : offset + (i : ℚ) * (360 / (L : ℚ)) + 1 ≤
      offset + (j : ℚ) * (360 / (L : ℚ)) := by
    nlinarith [mul_le_mul_of_nonneg_right hij1 hpos.le]
  have hfl1 : ⌊offset + (i : ℚ) * (360 / (L : ℚ))⌋ + 1 ≤
      ⌊offset + (j : ℚ) * (360 / (L : ℚ))⌋ := by
    have h1 : ⌊offset + (i : ℚ) * (360 / (L : ℚ)) + 1⌋ ≤
        ⌊offset + (j : ℚ) * (360 / (L : ℚ))⌋ := Int.floor_le_floor hxy
    rwa [Int.floor_add_one] at h1
  have hyle : ((⌊offset + (j : ℚ) * (360 / (L : ℚ))⌋ : Int) : ℚ) ≤
      offset + (j : ℚ) * (360 / (L : ℚ)) := Int.floor_le _
  have hxgt : offset + (i : ℚ) * (360 / (L : ℚ)) <
      ((⌊offset + (i : ℚ) * (360 / (L : ℚ))⌋ : Int) : ℚ) + 1 :=
    Int.lt_floor_add_one _
  have hjd : (j : ℚ) * (360 / (L : ℚ)) ≤ 360 - 360 / (L : ℚ) := by
    have h3 : (j : ℚ) * (360 / (L : ℚ)) ≤ ((L : ℚ) - 1) * (360 / (L : ℚ)) :=
      mul_le_mul_of_nonneg_right (by linarith) hpos.le
    nlinarith
  have hid : (0 : ℚ) ≤ (i : ℚ) * (360 / (L : ℚ)) := mul_nonneg hi0 hpos.le
  have hlt360 : ((⌊offset + (j : ℚ) * (360 / (L : ℚ))⌋ -
      ⌊offset + (i : ℚ) * (360 / (L : ℚ))⌋ : Int) : ℚ) < 360 := by
    push_cast
    linarith
  have hflu : ⌊offset + (j : ℚ) * (360 / (L : ℚ))⌋ -
      ⌊offset + (i : ℚ) * (360 / (L : ℚ))⌋ < 360 := by exact_mod_cast hlt360
  have hmod : Int.ModEq 360 ⌊offset + (i : ℚ) * (360 / (L : ℚ))⌋
      ⌊offset + (j : ℚ) * (360 / (L : ℚ))⌋ := heq
  have hdvd : (360 : Int) ∣ ⌊offset + (j : ℚ) * (360 / (L : ℚ))⌋ -
      ⌊offset + (i : ℚ) * (360 / (L : ℚ))⌋ := hmod.dvd
  have h360 : (360 : Int) ≤ ⌊offset + (j : ℚ) * (360 / (L : ℚ))⌋ -
      ⌊offset + (i : ℚ) * (360 / (L : ℚ))⌋ := Int.le_of_dvd (by omega) hdvd
  omega

/-- C9 amended: for any run offset in [0, 360), when the total number of
tag occurrences is at most 360 the table assigns distinct tags pairwise
distinct hues; with more than 360 occurrences the interval drops below one
degree and collisions occur (361 or more integer hues cannot be pairwise
distinct modulo 360; see the counterexample). -/
theorem c9_hues_distinct (items : List Item) (offset : ℚ) (tag1 tag2 : String)
    (h1 h2 : Int)
    (ho0 : 0 ≤ offset) (ho1 : offset < 360)
    (hL : (tagsOfItems items).length ≤ 360)
    (hne : tag1 ≠ tag2)
    (l1 : populateTagColorStyles items offset tag1 = some h1)
    (l2 : populateTagColorStyles items offset tag2 = some h2) :
    h1 ≠ h2 := by
  unfold populateTagColorStyles at l1 l2
  rcases buildColors_lookup _ _ _ _ _ tag1 h1 l1 with ⟨k1, hk1, hh1⟩ | hcontra
  swap
  · simp at hcontra
  rcases buildColors_lookup _ _ _ _ _ tag2 h2 l2 with ⟨k2, hk2, hh2⟩ | hcontra
  swap
  · simp at hcontra
  have hk1L : k1 < (tagsOfItems items).length :=
    (List.getElem?_eq_some_iff.mp hk1).1
  have hk2L : k2 < (tagsOfItems items).length :=
    (List.getElem?_eq_some_iff.mp hk2).1
  have hkne : k1 ≠ k2 := by
    intro hkk
    apply hne
    rw [hkk] at hk1
    exact Option.some.inj (hk1.symm.trans hk2)
  simp only [Nat.zero_add] at hh1 hh2
  rw [hh1, hh2]
  rcases Nat.lt_or_ge k1 k2 with hlt | hge
  · exact hueAt_ne _ offset k1 k2 ho0 ho1 hL hlt hk2L
  · have hlt2 : k2 < k1 := by omega
    exact (hueAt_ne _ offset k2 k1 ho0 ho1 hL hlt2 hk1L).symm

/-- An item set with 361 tag occurrences and three distinct tags: the hue
interval is 360/361 of a degree, so slots 0 and 1 truncate to the same
integer hue. -/
def itemsC9 : List Item :=
  [{ status := Status.Open, tags := "#a" :: "#b" :: List.replicate 359 "#c" }]

theorem c9_collision :
    populateTagColorStyles itemsC9 0 "#a" = some 0 ∧
    populateTagColorStyles itemsC9 0 "#b" = some 0 ∧
    ("#a" : String) ≠ "#b" := by
  have htags : tagsOfItems itemsC9 = "#a" :: "#b" :: List.replicate 359 "#c" := by
    simp [tagsOfItems, itemsC9, Item.Tags]
  have hq : (360 : ℚ) / ((tagsOfItems itemsC9).length : ℚ) = 360 / 361 := by
    rw [htags]
    norm_num [List.length_replicate]
  have hnotmem : "#a" ∉ List.replicate 359 "#c" := by
    simp [List.mem_replicate]
  have hnotmemb : "#b" ∉ List.replicate 359 "#c" := by
    simp [List.mem_replicate]
  refine ⟨?_, ?_, by decide⟩
  · unfold populateTagColorStyles
    rw [hq, htags]
    rw [buildColors, buildColors,
      buildColors_preserve 0 (360 / 361) (List.replicate 359 "#c") 2 _ "#a" hnotmem]
    rw [if_neg (by decide : ¬("#a" : String) = "#b"), if_pos rfl]
    norm_num [hueAt]
  · unfold populateTagColorStyles
    rw [hq, htags]
    rw [buildColors, buildColors,
      buildColors_preserve 0 (360 / 361) (List.replicate 359 "#c") 2 _ "#b" hnotmemb]
    rw [if_pos rfl]
    norm_num [hueAt]

def itemsC9w : List Item := [{ status := Status.Open, tags := ["#a", "#b"] }]

theorem c9_witness :
    populateTagColorStyles itemsC9w 0 "#a" = some 0 ∧
    populateTagColorStyles itemsC9w 0 "#b" = some 180 ∧
    (0 : Int) ≠ 180 := by
  have ha : populateTagColorStyles itemsC9w 0 "#a" = some 0 := by
    unfold populateTagColorStyles tagsOfItems
    simp only [itemsC9w, List.flatMap_cons, List.flatMap_nil, Item.Tags,
      List.append_nil, List.length_cons, List.length_nil]
    rw [buildColors, buildColors, buildColors]
    rw [if_neg (by decide : ¬("#a" : String) = "#b"), if_pos rfl]
    norm_num [hueAt]
  have hb : populateTagColorStyles itemsC9w 0 "#b" = some 180 := by
    unfold populateTagColorStyles tagsOfItems
    simp only [itemsC9w, List.flatMap_cons, List.flatMap_nil, Item.Tags,
      List.append_nil, List.length_cons, List.length_nil]
    rw [buildColors, buildColors, buildColors]
    rw [if_pos rfl]
    norm_num [hueAt]
  exact ⟨ha, hb,
    c9_hues_distinct itemsC9w 0 "#a" "#b" 0 180 (by norm_num) (by norm_num)
      (by norm_num [tagsOfItems, itemsC9w, Item.Tags]) (by decide) ha hb⟩
